import Mathlib

/-!
Verification of the core logic of `misc/lvm-cache-friend.py`: the
line-oriented request protocol (`read_peer`), tag sanitization
(`clean_tag`), the tag-matching volume resolver (the `for tags in
mount.findtags` loop of `main`), snapshot-name generation
(`next_snapshot_name`), the namespace mount sequence with rollback
(`mount_into_namespace`), the per-request handler of `main`, and the
startup default-volume resolution of `main`.

Strings are modelled through their character lists; Python's `str.strip`
and `str.split()` are embedded over an ASCII whitespace predicate.
External commands (`run` / `run_noraise`) are modelled by an oracle
`exec : List String → Option String` mapping an argv to `none` on
success and to `some stderrText` when the command exits non-zero
(`CalledProcessError`).  `run` propagates that failure, `run_noraise`
swallows it (logging only), which the embeddings reflect directly.
-/

namespace LvmCacheFriend

/-- ASCII whitespace, as stripped by Python's `str.strip()` /
split on by `str.split()` (restricted to the ASCII range). -/
def is_ws (c : Char) : Bool :=
  c = ' ' || c = '\t' || c = '\n' || c = '\r' || c = '\x0b' || c = '\x0c'

/-- Python `str.strip()`: drop leading and trailing whitespace. -/
def strip (s : String) : String :=
  ⟨((s.data.dropWhile is_ws).reverse.dropWhile is_ws).reverse⟩

/-- Worker for `split_ws`: `acc` holds the current word, reversed. -/
def split_ws_chars (acc : List Char) : List Char → List String
  | [] => if acc = [] then [] else [⟨acc.reverse⟩]
  | c :: cs =>
    if is_ws c then
      if acc = [] then split_ws_chars [] cs
      else ⟨acc.reverse⟩ :: split_ws_chars [] cs
    else split_ws_chars (c :: acc) cs

/-- Python `str.split()` with no argument: split on whitespace runs,
dropping empty fields. -/
def split_ws (s : String) : List String :=
  split_ws_chars [] s.data

/-- Python `text.startswith(pre)`. -/
def starts_with (text pre : String) : Bool :=
  pre.data.isPrefixOf text.data

/-- Source: `drop_prefix(text, prefix)` from the source (lines 172-174): if
`text` starts with the keyword, the rest of `text` stripped, else
`None`. -/
def drop_front (text pre : String) : Option String :=
  if starts_with text pre then some (strip ⟨text.data.drop pre.data.length⟩)
  else none

/-- Characters the `TAG_PATTERN` regex (line 179) accepts, i.e. LVM's
legal tag characters: `A-Z a-z 0-9 / = ! : # & + . - _`. -/
def allowed_char (c : Char) : Bool :=
  c.isAlpha || c.isDigit ||
    c ∈ (['/', '=', '!', ':', '#', '&', '+', '.', '-', '_'] : List Char)

/-- Source: `clean_tag` (lines 182-193): `TAG_PATTERN.sub("-", text)` replaces
every character outside the allowed set with `-`. -/
def clean_tag (s : String) : String :=
  ⟨s.data.map (fun c => if allowed_char c then c else '-')⟩

/-- Does every character of `s` belong to the LVM-legal tag set? -/
def str_allowed (s : String) : Bool :=
  s.data.all allowed_char

/-- The `Load` dataclass (lines 226-230): one parsed mount request. -/
structure Load where
  dst : String
  addtags : List String
  findtags : List (List String)
deriving Repr, DecidableEq

/-- Truthiness of an optional string, as Python's `if x := ...:` tests
it: `some s` is truthy iff `s` is non-empty. -/
def truthy : Option String → Option String
  | some s => if s = "" then none else some s
  | none => none

/-- The record-reading loop of `read_peer` (lines 262-270) over
`read_until_empty_line` (lines 283-285).  Input is the list of
remaining raw lines (`[]` = EOF); result is
`(addtags, findtags, output lines, remaining lines)`. -/
def read_record : List String → List String × List (List String) × List String × List String
  | [] => ([], [], [], [])
  | line :: rest =>
    if strip line = "" then ([], [], [], rest)
    else
      match truthy (drop_front (strip line) "<") with
      | some addtag =>
        (split_ws addtag ++ (read_record rest).1, (read_record rest).2.1,
         (read_record rest).2.2.1, (read_record rest).2.2.2)
      | none =>
        match truthy (drop_front (strip line) ">") with
        | some findtag =>
          ((read_record rest).1, split_ws findtag :: (read_record rest).2.1,
           (read_record rest).2.2.1, (read_record rest).2.2.2)
        | none =>
          ((read_record rest).1, (read_record rest).2.1,
           ("ignoring unexpected `" ++ strip line ++ "`") :: (read_record rest).2.2.1,
           (read_record rest).2.2.2)

theorem read_record_rest_length_le (lines : List String) :
    (read_record lines).2.2.2.length ≤ lines.length := by
  induction lines with
  | nil => simp [read_record]
  | cons line rest ih =>
    simp only [read_record, List.length_cons]
    by_cases h : strip line = ""
    · rw [if_pos h]; exact Nat.le_succ _
    · rw [if_neg h]
      rcases truthy (drop_front (strip line) "<") with _ | t
      · rcases truthy (drop_front (strip line) ">") with _ | t
        · exact Nat.le_succ_of_le ih
        · exact Nat.le_succ_of_le ih
      · exact Nat.le_succ_of_le ih

/-- Worker for `read_peer`, structurally recursive on a fuel bounding
the number of remaining lines.  Each top-level iteration consumes at
least the line it reads (`read_record` only ever returns a suffix of
what follows it, `read_record_rest_length_le`), so with
`fuel ≥ lines.length` the zero-fuel case is unreachable and the
function computes exactly the Python loop (`read_peer_fuel_congr`
below makes the fuel-insensitivity precise). -/
def read_peer_fuel : Nat → List String → List Load × List String
  | _, [] => ([], [])
  | 0, _ :: _ => ([], [])
  | fuel + 1, line :: rest =>
    if strip line = "" then ([], [])
    else
      match drop_front (strip line) "mount" with
      | some dst =>
        (⟨dst, (read_record rest).1, (read_record rest).2.1⟩ ::
           (read_peer_fuel fuel (read_record rest).2.2.2).1,
         (read_record rest).2.2.1 ++ (read_peer_fuel fuel (read_record rest).2.2.2).2)
      | none =>
        match drop_front (strip line) "bye" with
        | some rest_str => ([], ["glhf " ++ rest_str])
        | none => ([], ["unexpected `" ++ strip line ++ "`"])

theorem read_peer_fuel_congr : ∀ (fuel fuel' : Nat) (lines : List String),
    lines.length ≤ fuel → lines.length ≤ fuel' →
    read_peer_fuel fuel lines = read_peer_fuel fuel' lines := by
  intro fuel
  induction fuel with
  | zero =>
    intro fuel' lines h h'
    cases lines with
    | nil => cases fuel' <;> rfl
    | cons line rest => simp at h
  | succ n ih =>
    intro fuel' lines h h'
    cases lines with
    | nil => cases fuel' <;> rfl
    | cons line rest =>
      cases fuel' with
      | zero => simp at h'
      | succ m =>
        have hr := read_record_rest_length_le rest
        simp only [List.length_cons] at h h'
        simp only [read_peer_fuel]
        rw [show read_peer_fuel n (read_record rest).2.2.2 =
              read_peer_fuel m (read_record rest).2.2.2 from
            ih m (read_record rest).2.2.2 (by omega) (by omega)]

/-- Source: `read_peer` (lines 255-280): the top-level protocol loop.  Input is
the list of raw lines the client sends (`[]` = EOF, where `readline()`
returns `""`); result is the list of yielded `Load`s and the list of
lines printed back to the peer. -/
def read_peer (lines : List String) : List Load × List String :=
  read_peer_fuel lines.length lines

/-- The `Lv` dataclass (lines 297-301): one catalog record. -/
structure Lv where
  vg : String
  name : String
  tags : List String
deriving Repr, DecidableEq

/-- Source: `required = [args.tag_prefix + clean_tag(tag) for tag in tags]`
(line 462).  `tagpre` is `args.tag_prefix`. -/
def required_tags (tagpre : String) (tags : List String) : List String :=
  tags.map (fun t => tagpre ++ clean_tag t)

/-- Source: `hasall = lambda lv: all(tag in lv.tags for tag in required)`
(line 463). -/
def lv_has_all (required : List String) (lv : Lv) : Bool :=
  required.all (fun tag => lv.tags.contains tag)

/-- The matcher loop of `main` (lines 461-469): for each tag-group in
order, pick the first catalog volume carrying every prefixed cleaned
tag (`next(filter(hasall, lvs), None)`); the `for`/`else` falls back to
the default volume when no group matched. -/
def resolve (tagpre : String) (findtags : List (List String)) (lvs : List Lv)
    (default : Lv) : Lv :=
  match findtags with
  | [] => default
  | tags :: rest =>
    match lvs.find? (lv_has_all (required_tags tagpre tags)) with
    | some lv => lv
    | none => resolve tagpre rest lvs default

/-- Source: `Struct(">IH").pack(int(time()), randrange(2**16))` (lines
288-293): big-endian 4-byte timestamp then 2-byte random, as a byte
list.  (`struct.pack` rejects a timestamp ≥ 2^32; theorems carry that
bound.) -/
def pack_name (t r : Nat) : List Nat :=
  [t / 2 ^ 24 % 256, t / 2 ^ 16 % 256, t / 2 ^ 8 % 256, t % 256,
   r / 2 ^ 8 % 256, r % 256]

/-- The alphabet of `base64.urlsafe_b64encode`. -/
def b64url_alphabet : List Char :=
  "ABCDEFGHIJKLMNOPQRSTUVWXYZabcdefghijklmnopqrstuvwxyz0123456789-_".data

/-- Character of the urlsafe-base64 alphabet at index `i`. -/
def b64c (i : Nat) : Char :=
  b64url_alphabet.getD i 'A'

/-- Source: `base64.urlsafe_b64encode` over a byte list (with `=` padding for
tails, though `pack_name` always yields a multiple of 3 bytes). -/
def b64url_encode : List Nat → List Char
  | b1 :: b2 :: b3 :: rest =>
    b64c (b1 / 4) :: b64c (b1 % 4 * 16 + b2 / 16) :: b64c (b2 % 16 * 4 + b3 / 64) ::
      b64c (b3 % 64) :: b64url_encode rest
  | [b1, b2] => [b64c (b1 / 4), b64c (b1 % 4 * 16 + b2 / 16), b64c (b2 % 16 * 4), '=']
  | [b1] => [b64c (b1 / 4), b64c (b1 % 4 * 16), '=', '=']
  | [] => []

/-- Source: `next_snapshot_name` (lines 291-294), with the time and the random
draw passed in explicitly. -/
def next_snapshot_name (t r : Nat) : String :=
  ⟨b64url_encode (pack_name t r)⟩

/-- Source: `args.name_prefix + next_snapshot_name()` (line 471).  `namepre`
is `args.name_prefix`. -/
def full_snapshot_name (namepre : String) (t r : Nat) : String :=
  namepre ++ next_snapshot_name t r

/-- Python string comparison (`<`) on code points, on char lists. -/
def chars_lt : List Char → List Char → Bool
  | [], [] => false
  | [], _ :: _ => true
  | _ :: _, [] => false
  | a :: as, b :: bs =>
    if a.toNat < b.toNat then true
    else if b.toNat < a.toNat then false
    else chars_lt as bs

/-- Python string comparison (`<`) on code points. -/
def str_lt (a b : String) : Bool :=
  chars_lt a.data b.data

/-- Python `bytes` comparison (`<`): lexicographic on byte values. -/
def bytes_lt : List Nat → List Nat → Bool
  | [], [] => false
  | [], _ :: _ => true
  | _ :: _, [] => false
  | a :: as, b :: bs =>
    if a < b then true
    else if b < a then false
    else bytes_lt as bs

/-! ### The mount sequence (`mount_into_namespace`, lines 379-406)

Each external command is its argv.  The oracle `exec` says whether an
invocation succeeds (`none`) or fails with some stderr text
(`some e`).  The embedding returns the ordered list of argvs invoked
(`run` and `run_noraise` alike) together with `none` on success or
`some (argv, stderr)` for the `CalledProcessError` that propagates out
of the function — `run_noraise` failures are logged, never raised, so
they never appear in that second component. -/

/-- Source: `stage = f"{top}/stage"` (line 385). -/
def stage_path (top : String) : String := top ++ "/stage"

/-- Source: `inner = f"{top}/stage/inner"` (line 386). -/
def inner_path (top : String) : String := top ++ "/stage/inner"

/-- Source: `run("mount", "--bind", stage, stage)` (line 389). -/
def bind_cmd (top : String) : List String :=
  ["mount", "--bind", stage_path top, stage_path top]

/-- Source: `run("mount", *mount_options, f"/dev/{vg}/{lv}", inner)` (line 391);
`mount_options = ("-o", mount_options) if mount_options else ()`. -/
def inner_mount_cmd (top vg lv opts : String) : List String :=
  ["mount"] ++ (if opts = "" then [] else ["-o", opts]) ++
    ["/dev/" ++ vg ++ "/" ++ lv, inner_path top]

/-- Source: `run("mount", "--namespace", str(pid), "--make-private", stage)`
(line 393). -/
def make_private_cmd (top : String) (pid : Nat) : List String :=
  ["mount", "--namespace", toString pid, "--make-private", stage_path top]

/-- Source: `run("mount", "--namespace", str(pid), "--move", inner, dst)`
(line 395). -/
def move_cmd (top : String) (pid : Nat) (dst : String) : List String :=
  ["mount", "--namespace", toString pid, "--move", inner_path top, dst]

/-- Source: `run_noraise("umount", "--namespace", str(pid), inner)` (line 399). -/
def ns_umount_inner_cmd (top : String) (pid : Nat) : List String :=
  ["umount", "--namespace", toString pid, inner_path top]

/-- Source: `run_noraise("umount", "--namespace", str(pid), stage)` (line 402). -/
def ns_umount_stage_cmd (top : String) (pid : Nat) : List String :=
  ["umount", "--namespace", toString pid, stage_path top]

/-- Source: `run_noraise("umount", inner)` (line 404). -/
def umount_inner_cmd (top : String) : List String :=
  ["umount", inner_path top]

/-- Source: `run_noraise("umount", stage)` (line 406). -/
def umount_stage_cmd (top : String) : List String :=
  ["umount", stage_path top]

/-- Source: `mount_into_namespace` (lines 379-406), unrolled over its
`try`/`except`/`finally` structure.  The trace lists every command
invoked, in order; the second component is the exception leaving the
function, if any. -/
def mount_into_namespace (exec : List String → Option String) (top vg lv : String)
    (pid : Nat) (dst : String) (opts : String) :
    List (List String) × Option (List String × String) :=
  match exec (bind_cmd top) with
  | some e => ([bind_cmd top], some (bind_cmd top, e))
  | none =>
    match exec (inner_mount_cmd top vg lv opts) with
    | some e =>
      -- `finally: run_noraise("umount", stage)`
      ([bind_cmd top, inner_mount_cmd top vg lv opts, umount_stage_cmd top],
       some (inner_mount_cmd top vg lv opts, e))
    | none =>
      match exec (make_private_cmd top pid) with
      | some e =>
        -- `finally` chain: `umount inner` then `umount stage`
        ([bind_cmd top, inner_mount_cmd top vg lv opts, make_private_cmd top pid,
          umount_inner_cmd top, umount_stage_cmd top],
         some (make_private_cmd top pid, e))
      | none =>
        match exec (move_cmd top pid dst) with
        | some e =>
          -- `except`: `umount --namespace inner`, re-raise; then the
          -- three `finally` unmounts; the original error propagates.
          ([bind_cmd top, inner_mount_cmd top vg lv opts, make_private_cmd top pid,
            move_cmd top pid dst, ns_umount_inner_cmd top pid,
            ns_umount_stage_cmd top pid, umount_inner_cmd top, umount_stage_cmd top],
           some (move_cmd top pid dst, e))
        | none =>
          -- success: only the three `finally` unmounts run.
          ([bind_cmd top, inner_mount_cmd top vg lv opts, make_private_cmd top pid,
            move_cmd top pid dst, ns_umount_stage_cmd top pid,
            umount_inner_cmd top, umount_stage_cmd top],
           none)

/-- Source: `lvcreate_snapshot` (lines 349-357): the argv it runs. -/
def lvcreate_argv (vg from_lv name : String) (tags : List String) : List String :=
  ["lvcreate", "--snapshot", vg ++ "/" ++ from_lv, "--ignoreactivationskip",
   "--name", name] ++ (tags.map (fun tag => ["--addtag", tag])).flatten

/-- Source: `addtags` built in `main` (lines 472-474): prefixed cleaned client
tags plus the bonus snapshot tag list. -/
def addtags_built (tagpre : String) (tag_snapshot : List String)
    (addtags : List String) : List String :=
  addtags.map (fun t => tagpre ++ clean_tag t) ++ tag_snapshot

/-- Source: `tag_snapshot = [clean_tag(args.tag_snapshot)] if args.tag_snapshot
else []` (line 448), where `args.tag_snapshot` itself was already
passed through `clean_tag` by argparse (line 424); `raw` is the
command-line value. -/
def tag_snapshot_of (raw : String) : List String :=
  if clean_tag raw = "" then [] else [clean_tag (clean_tag raw)]

/-- The per-request body of `main` (lines 461-490): resolve the source
volume, generate the snapshot name, build the tags, run
`lvcreate_snapshot` then `mount_into_namespace`; on a
`CalledProcessError` from either, print its stderr to the peer, else
print `lv.vg, lv.name`.  Returns the lines printed to the peer. -/
def handle_mount (exec : List String → Option String) (tagpre : String)
    (tag_snapshot : List String) (namepre shared : String) (lvs : List Lv)
    (default : Lv) (pid : Nat) (mount : Load) (t r : Nat) (opts : String) :
    List String :=
  match exec (lvcreate_argv (resolve tagpre mount.findtags lvs default).vg
      (resolve tagpre mount.findtags lvs default).name
      (full_snapshot_name namepre t r)
      (addtags_built tagpre tag_snapshot mount.addtags)) with
  | some e => [e]
  | none =>
    match (mount_into_namespace exec shared
        (resolve tagpre mount.findtags lvs default).vg
        (full_snapshot_name namepre t r) pid mount.dst opts).2 with
    | some pe => [pe.2]
    | none =>
      [(resolve tagpre mount.findtags lvs default).vg ++ " " ++
        (resolve tagpre mount.findtags lvs default).name]

/-- Observable startup events of `main` before the accept loop. -/
inductive StartEvent where
  | listen (path : String)
deriving Repr, DecidableEq

/-- The startup block of `main` (lines 431-443): scan the catalog for
the first volume tagged `args.default` (`filter(lv_has_tag(eq(...)))`
plus `for`/`break`/`else`); on `LvsError` or no match,
`SystemExit(1)` before `unix_listen` runs; otherwise the first match
is kept and the socket is created.  `catalog` is `.error e` when
`iter_lvs` raises `LvsError e`. -/
def startup (catalog : Except String (List Lv)) (dtag path : String) :
    List StartEvent × Except Nat Lv :=
  match catalog with
  | .error _ => ([], .error 1)
  | .ok lvs =>
    match lvs.find? (fun lv => lv.tags.contains dtag) with
    | none => ([], .error 1)
    | some lv => ([StartEvent.listen path], .ok lv)

/-! ### Helper lemmas -/

theorem find?_append_first {α : Type} (p : α → Bool) (pre : List α) (x : α)
    (post : List α) (hx : p x = true) (hpre : ∀ a ∈ pre, p a = false) :
    List.find? p (pre ++ x :: post) = some x := by
  induction pre with
  | nil => simpa using List.find?_cons_of_pos post hx
  | cons a as ih =>
    have ha : p a = false := hpre a (by simp)
    rw [List.cons_append, List.find?_cons_of_neg _ (by simp [ha])]
    exact ih (fun b hb => hpre b (by simp [hb]))

theorem string_data_append (a b : String) : (a ++ b).data = a.data ++ b.data := rfl

theorem clean_tag_allowed (s : String) : str_allowed (clean_tag s) = true := by
  simp only [str_allowed, clean_tag, List.all_map, List.all_eq_true, Function.comp_apply]
  intro c _
  cases h : allowed_char c with
  | true => simp [h]
  | false =>
    rw [if_neg (by simp [h])]
    decide

theorem str_allowed_append (a b : String) :
    str_allowed (a ++ b) = (str_allowed a && str_allowed b) := by
  simp [str_allowed, string_data_append, List.all_append]

theorem lex_step_lt (a b : Nat) (x : Bool) (h : a < b) :
    (if a < b then true else if b < a then false else x) = true := by
  rw [if_pos h]

theorem lex_step_eq (a b : Nat) (x : Bool) (h : a = b) :
    (if a < b then true else if b < a then false else x) = x := by
  rw [if_neg (by omega), if_neg (by omega)]

/-! ### C10 — blank top-level line ends the session -/

/-- C10: at the top level of a connection, a blank or whitespace-only
line ends the request sequence exactly like end of stream — no further
`Load`s are yielded and nothing is written back, same as `read_peer`
at EOF. -/
theorem blank_line_ends_session (line : String) (rest : List String)
    (h : strip line = "") :
    read_peer (line :: rest) = ([], []) ∧ read_peer ([] : List String) = ([], []) := by
  constructor
  · simp only [read_peer, List.length_cons, read_peer_fuel]
    rw [if_pos h]
  · rfl

/-- Witness for C10 at a whitespace-only line followed by a pending
mount command. -/
theorem blank_line_ends_session_witness :
    read_peer [" ", "mount /x"] = ([], []) ∧ read_peer ([] : List String) = ([], []) :=
  blank_line_ends_session (" ") ["mount /x"] (by decide)

/-! ### C5 — bare `>` lines and empty tag-groups -/

/-- C5 counterexample: a bare `>` record line does NOT contribute an
empty tag-group: it is echoed back as "ignoring unexpected" and the
resulting request has no tag-group at all. -/
theorem bare_find_line_yields_no_group :
    read_peer ["mount /x", ">"] =
      ([⟨"/x", [], []⟩], ["ignoring unexpected `>`"])
    ∧ ∀ load ∈ (read_peer ["mount /x", ">"]).1, ([] : List String) ∉ load.findtags := by
  decide

/-- C5 (amended): a bare `>` line inside a record is echoed back as
"ignoring unexpected `>`" and leaves `addtags` and `findtags` of the
record unchanged; and an empty tag-group — were one present in
`findtags` — matches every volume, so resolution with it at the head
returns the first catalog volume. -/
theorem bare_find_line_and_empty_group (rest : List String) (tagpre : String)
    (gs : List (List String)) (lv : Lv) (lvs : List Lv) (d : Lv) :
    read_record (">" :: rest) =
      ((read_record rest).1, (read_record rest).2.1,
       "ignoring unexpected `>`" :: (read_record rest).2.2.1, (read_record rest).2.2.2)
    ∧ resolve tagpre ([] :: gs) (lv :: lvs) d = lv := by
  constructor
  · simp [read_record, show strip (">") = ">" from by decide,
      show truthy (drop_front (">") "<") = none from by decide,
      show truthy (drop_front (">") ">") = none from by decide,
      show ¬ (">" : String) = "" from by decide,
      show ("ignoring unexpected `" ++ ">" ++ "`" : String) =
        "ignoring unexpected `>`" from by decide]
  · rw [resolve, List.find?_cons_of_pos _ (by simp [lv_has_all, required_tags])]

/-! ### C6 — the mount-line grammar -/

/-- C6 counterexample: `mountfoo` — the keyword `mount` NOT followed by
whitespace — is nonetheless accepted as a mount request with
destination `foo`, instead of being echoed back as unexpected input. -/
theorem mount_keyword_no_space_accepted :
    read_peer ["mountfoo"] = ([⟨"foo", [], []⟩], [])
    ∧ read_peer ["mountfoo"] ≠ (([] : List Load), ["unexpected `mountfoo`"]) := by
  decide

/-- C6 (amended): a stripped non-blank top-level line is recognized as
a mount request exactly when it starts with the literal case-sensitive
keyword `mount` (whether or not whitespace follows), the destination
being the rest of the line trimmed; a non-blank top-level line
starting with neither `mount` nor `bye` is echoed back as
`unexpected ...` and ends the connection sequence with no requests. -/
theorem mount_line_grammar (line : String) (rest : List String)
    (hne : strip line ≠ "") :
    (starts_with (strip line) "mount" = true →
      ∃ a f, (read_peer (line :: rest)).1.head? =
        some ⟨strip ⟨(strip line).data.drop ("mount".data.length)⟩, a, f⟩)
    ∧ (starts_with (strip line) "mount" = false →
       starts_with (strip line) "bye" = false →
       read_peer (line :: rest) = ([], ["unexpected `" ++ strip line ++ "`"])) := by
  constructor
  · intro h
    simp only [read_peer, List.length_cons, read_peer_fuel]
    rw [if_neg hne]
    rw [show drop_front (strip line) "mount" =
          some (strip ⟨(strip line).data.drop ("mount".data.length)⟩) by
        rw [drop_front, if_pos h]]
    exact ⟨_, _, rfl⟩
  · intro hm hb
    simp only [read_peer, List.length_cons, read_peer_fuel]
    rw [if_neg hne]
    rw [show drop_front (strip line) "mount" = none by rw [drop_front, hm]; rfl]
    rw [show drop_front (strip line) "bye" = none by rw [drop_front, hb]; rfl]

/-- Witness for C6 at the session-ending branch. -/
theorem mount_line_grammar_witness :
    read_peer ["hello"] = ([], ["unexpected `hello`"]) :=
  (mount_line_grammar ("hello") [] (by decide)).2 (by decide) (by decide)

/-! ### C1 — Tag Matcher resolution -/

/-- C1: the resolver tries tag-groups in order; a group selects the
first catalog volume (catalog given most-recent first) whose tag set
contains every prefixed tag of the group, and as soon as a group
matches, later groups are irrelevant (`rest` is arbitrary in the
second conjunct); with no groups, or when no group matches any volume,
the default volume is returned; and on groups `[["a","b"],["a"]]` with
catalog `V1{p+a}, V2{p+a,p+b}` (V1 most recent) the result is `V2`. -/
theorem resolve_group_priority (tagpre : String) (lvs : List Lv) (d : Lv) :
    resolve tagpre [] lvs d = d
    ∧ (∀ g rest pre lv post, lvs = pre ++ lv :: post →
        lv_has_all (required_tags tagpre g) lv = true →
        (∀ lv' ∈ pre, lv_has_all (required_tags tagpre g) lv' = false) →
        resolve tagpre (g :: rest) lvs d = lv)
    ∧ (∀ groups, (∀ g ∈ groups, ∀ lv ∈ lvs,
          lv_has_all (required_tags tagpre g) lv = false) →
        resolve tagpre groups lvs d = d)
    ∧ resolve ("p+") [["a", "b"], ["a"]]
        [⟨"vg", "V1", ["p+a"]⟩, ⟨"vg", "V2", ["p+a", "p+b"]⟩] d =
        ⟨"vg", "V2", ["p+a", "p+b"]⟩ := by
  refine ⟨rfl, ?_, ?_, ?_⟩
  · intro g rest pre lv post hsplit hx hpre
    subst hsplit
    rw [resolve, find?_append_first _ _ _ _ hx hpre]
  · intro groups hnone
    induction groups with
    | nil => rfl
    | cons g gs ih =>
      rw [resolve, List.find?_eq_none.mpr (fun lv hlv => by
        simp [hnone g (by simp) lv hlv])]
      exact ih (fun g' hg' lv hlv => hnone g' (by simp [hg']) lv hlv)
  · rw [resolve, show List.find? (lv_has_all (required_tags ("p+") ["a", "b"]))
        [⟨"vg", "V1", ["p+a"]⟩, ⟨"vg", "V2", ["p+a", "p+b"]⟩] =
        some ⟨"vg", "V2", ["p+a", "p+b"]⟩ from by decide]

/-- Witness for C1: the spec's own example, discharging the
first-catalog-hit hypotheses at `pre = [V1]`. -/
theorem resolve_group_priority_witness :
    resolve ("p+") [["a", "b"], ["x"]]
      [⟨"vg", "V1", ["p+a"]⟩, ⟨"vg", "V2", ["p+a", "p+b"]⟩] ⟨"d", "d", []⟩ =
      ⟨"vg", "V2", ["p+a", "p+b"]⟩ :=
  (resolve_group_priority ("p+")
      [⟨"vg", "V1", ["p+a"]⟩, ⟨"vg", "V2", ["p+a", "p+b"]⟩] ⟨"d", "d", []⟩).2.1
    ["a", "b"] [["x"]] [⟨"vg", "V1", ["p+a"]⟩] ⟨"vg", "V2", ["p+a", "p+b"]⟩ []
    rfl (by decide) (by decide)

/-! ### C2 — rollback when the move step fails -/

/-- C2: whenever the first three mount steps succeed and the
`--move` into the destination fails, the function invokes — in order,
after the failed move — the best-effort unmount of the inner mount in
the target namespace, the best-effort unmount of the staging
bind-mount in the target namespace, then (after the own-namespace
inner unmount of the `finally` chain) the unmount of the staging
bind-mount in the daemon's own namespace, and the exception leaving
the function is the original move failure.  `exec` is unconstrained on
every unwind command, so a failing best-effort unmount never changes
the trace or the reported failure. -/
theorem move_failure_rollback (exec : List String → Option String)
    (top vg lv : String) (pid : Nat) (dst opts e : String)
    (h1 : exec (bind_cmd top) = none)
    (h2 : exec (inner_mount_cmd top vg lv opts) = none)
    (h3 : exec (make_private_cmd top pid) = none)
    (h4 : exec (move_cmd top pid dst) = some e) :
    mount_into_namespace exec top vg lv pid dst opts =
      ([bind_cmd top, inner_mount_cmd top vg lv opts, make_private_cmd top pid,
        move_cmd top pid dst, ns_umount_inner_cmd top pid,
        ns_umount_stage_cmd top pid, umount_inner_cmd top, umount_stage_cmd top],
       some (move_cmd top pid dst, e)) := by
  rw [mount_into_namespace, h1, h2, h3, h4]

/-- Witness oracle for C2: every command succeeds except the move. -/
def move_fails_exec : List String → Option String :=
  fun argv => if argv = move_cmd ("/run/f") 7 ("/dst") then some ("boom") else none

/-- Witness for C2 at a concrete configuration. -/
theorem move_failure_rollback_witness :
    mount_into_namespace move_fails_exec ("/run/f") "vg0" "lv0" 7 ("/dst") "discard" =
      ([bind_cmd ("/run/f"), inner_mount_cmd ("/run/f") "vg0" "lv0" "discard",
        make_private_cmd ("/run/f") 7, move_cmd ("/run/f") 7 ("/dst"),
        ns_umount_inner_cmd ("/run/f") 7, ns_umount_stage_cmd ("/run/f") 7,
        umount_inner_cmd ("/run/f"), umount_stage_cmd ("/run/f")],
       some (move_cmd ("/run/f") 7 ("/dst"), "boom")) :=
  move_failure_rollback move_fails_exec ("/run/f") "vg0" "lv0" 7 ("/dst") "discard" "boom"
    (by decide) (by decide) (by decide) (by decide)

/-! ### C3 — what is unwound when the move succeeds -/

/-- C3 counterexample: on the all-success path the call sequence DOES
contain an unmount of the inner mount — `umount <top>/stage/inner` in
the daemon's own namespace runs from the `finally:` chain — so the
unwinding is not limited to the staging directory's own bind-mount. -/
theorem success_path_unmounts_inner :
    (mount_into_namespace (fun _ => none) "/run/f" "vg0" "lv0" 7 ("/dst") "discard").2 =
      none
    ∧ ((mount_into_namespace (fun _ => none) "/run/f" "vg0" "lv0" 7 ("/dst")
          "discard").1).contains (umount_inner_cmd ("/run/f")) = true := by
  decide

/-- C3 (amended): whenever every step up to and including the move
succeeds, the inner mount is not unmounted again *within the target
namespace* (no `umount --namespace <pid> <inner>` appears in the call
sequence); the unwinding performed is: the staging bind-mount released
in the target namespace, the inner mount released in the daemon's own
namespace, and the staging bind-mount released in the daemon's own
namespace — and no failure is reported. -/
theorem move_success_frame (exec : List String → Option String)
    (top vg lv : String) (pid : Nat) (dst opts : String)
    (h1 : exec (bind_cmd top) = none)
    (h2 : exec (inner_mount_cmd top vg lv opts) = none)
    (h3 : exec (make_private_cmd top pid) = none)
    (h4 : exec (move_cmd top pid dst) = none) :
    mount_into_namespace exec top vg lv pid dst opts =
      ([bind_cmd top, inner_mount_cmd top vg lv opts, make_private_cmd top pid,
        move_cmd top pid dst, ns_umount_stage_cmd top pid,
        umount_inner_cmd top, umount_stage_cmd top],
       none)
    ∧ ns_umount_inner_cmd top pid ∉
        (mount_into_namespace exec top vg lv pid dst opts).1 := by
  have htrace : mount_into_namespace exec top vg lv pid dst opts =
      ([bind_cmd top, inner_mount_cmd top vg lv opts, make_private_cmd top pid,
        move_cmd top pid dst, ns_umount_stage_cmd top pid,
        umount_inner_cmd top, umount_stage_cmd top],
       none) := by
    rw [mount_into_namespace, h1, h2, h3, h4]
  refine ⟨htrace, ?_⟩
  rw [htrace]
  have hpaths : inner_path top ≠ stage_path top := by
    intro hret
    have hlen := congrArg (fun s : String => s.data.length) hret
    simp only [inner_path, stage_path, string_data_append,
      List.length_append, List.length_cons, List.length_nil] at hlen
    omega
  intro hmem
  simp only [List.mem_cons, List.not_mem_nil, or_false] at hmem
  rcases hmem with h | h | h | h | h | h | h
  · exact absurd (congrArg List.head? h) (by simp [ns_umount_inner_cmd, bind_cmd])
  · refine absurd (congrArg List.head? h) ?_
    simp only [ns_umount_inner_cmd, inner_mount_cmd]
    rcases em (opts = "") with ho | ho <;> simp [ho]
  · exact absurd (congrArg List.head? h)
      (by simp [ns_umount_inner_cmd, make_private_cmd])
  · exact absurd (congrArg List.length h)
      (by simp [ns_umount_inner_cmd, move_cmd])
  · have := congrArg (fun l : List String => l.getLast?) h
    simp only [ns_umount_inner_cmd, ns_umount_stage_cmd, List.getLast?] at this
    simp at this
    exact hpaths this
  · exact absurd (congrArg List.length h)
      (by simp [ns_umount_inner_cmd, umount_inner_cmd])
  · exact absurd (congrArg List.length h)
      (by simp [ns_umount_inner_cmd, umount_stage_cmd])

/-- Witness for C3's amended theorem: all commands succeed. -/
theorem move_success_frame_witness :
    mount_into_namespace (fun _ => none) "/run/f" "vg0" "lv0" 7 ("/dst") "discard" =
      ([bind_cmd ("/run/f"), inner_mount_cmd ("/run/f") "vg0" "lv0" "discard",
        make_private_cmd ("/run/f") 7, move_cmd ("/run/f") 7 ("/dst"),
        ns_umount_stage_cmd ("/run/f") 7, umount_inner_cmd ("/run/f"),
        umount_stage_cmd ("/run/f")],
       none)
    ∧ ns_umount_inner_cmd ("/run/f") 7 ∉
        (mount_into_namespace (fun _ => none) "/run/f" "vg0" "lv0" 7 ("/dst")
          "discard").1 :=
  move_success_frame (fun _ => none) "/run/f" "vg0" "lv0" 7 ("/dst") "discard"
    rfl rfl rfl rfl

/-! ### C4 — the success response line -/

/-- C4 counterexample: on a fully successful request the single
response line carries the *source* volume's name (`lv.vg, lv.name` at
line 490), not the freshly generated snapshot name of the newly
created clone: here the response is `"vg0 src"` while the clone is
named `full_snapshot_name "friend-" 0 0`. -/
theorem response_names_source_not_clone :
    handle_mount (fun _ => none) "p+" ["friend:snapshot"] "friend-" "/run/f"
        [⟨"vg0", "src", ["p+a"]⟩] ⟨"d", "d", []⟩ 7 ⟨"/x", [], [["a"]]⟩ 0 0 ("discard") =
      ["vg0 src"]
    ∧ "vg0 src" ≠ "vg0" ++ " " ++ full_snapshot_name ("friend-") 0 0 := by
  decide

/-- C4 (amended): for every mount request whose clone-create and mount
sequence fully succeed, exactly one response line `"<group> <name>"` is
written back, and the `(group, name)` pair it carries is the identity
of the *resolved source volume* — the volume used as the clone's
source (its group is also the clone's group; its name is not the
clone's generated name). -/
theorem success_response_source_identity (exec : List String → Option String)
    (tagpre : String) (tag_snapshot : List String) (namepre shared : String)
    (lvs : List Lv) (d : Lv) (pid : Nat) (mount : Load) (t r : Nat) (opts : String)
    (hc : exec (lvcreate_argv (resolve tagpre mount.findtags lvs d).vg
        (resolve tagpre mount.findtags lvs d).name (full_snapshot_name namepre t r)
        (addtags_built tagpre tag_snapshot mount.addtags)) = none)
    (h1 : exec (bind_cmd shared) = none)
    (h2 : exec (inner_mount_cmd shared (resolve tagpre mount.findtags lvs d).vg
        (full_snapshot_name namepre t r) opts) = none)
    (h3 : exec (make_private_cmd shared pid) = none)
    (h4 : exec (move_cmd shared pid mount.dst) = none) :
    handle_mount exec tagpre tag_snapshot namepre shared lvs d pid mount t r opts =
      [(resolve tagpre mount.findtags lvs d).vg ++ " " ++
        (resolve tagpre mount.findtags lvs d).name] := by
  rw [handle_mount, hc, mount_into_namespace, h1, h2, h3, h4]

/-- Witness for C4's amended theorem: everything succeeds. -/
theorem success_response_source_identity_witness :
    handle_mount (fun _ => none) "p+" ["friend:snapshot"] "friend-" "/run/f"
        [⟨"vg0", "src", ["p+a"]⟩] ⟨"d", "d", []⟩ 7 ⟨"/x", [], [["a"]]⟩ 0 0 ("discard") =
      [(resolve ("p+") [["a"]] [⟨"vg0", "src", ["p+a"]⟩] ⟨"d", "d", []⟩).vg ++ " " ++
        (resolve ("p+") [["a"]] [⟨"vg0", "src", ["p+a"]⟩] ⟨"d", "d", []⟩).name] :=
  success_response_source_identity (fun _ => none) "p+" ["friend:snapshot"]
    "friend-" "/run/f" [⟨"vg0", "src", ["p+a"]⟩] ⟨"d", "d", []⟩ 7
    ⟨"/x", [], [["a"]]⟩ 0 0 ("discard") rfl rfl rfl rfl rfl

/-! ### C7 — snapshot-name ordering -/

/-- C7 counterexample: two whole-second timestamps `t1 < t2` (both
valid 32-bit Unix times) whose generated names compare in the WRONG
order: the urlsafe-base64 alphabet is not in code-point order
(`'z' > '0'`), so the name generated at the later `t2` compares
lexicographically before the one generated at the earlier `t1`. -/
theorem names_not_lexicographically_chronological :
    (53477376 : Nat) < 54525952
    ∧ str_lt (full_snapshot_name ("friend-") 54525952 0)
        (full_snapshot_name ("friend-") 53477376 0) = true := by
  decide

/-- C7 (amended): every generated name is the configured name prefix
followed by the urlsafe-base64 encoding of the packed 32-bit
whole-second timestamp and 16-bit random component, and it is the
*packed byte strings* that sort chronologically: for t1 < t2 (t2 a
valid 32-bit time), every packing at t1 compares before every packing
at t2 — the base64 *names* need not, as the counterexample shows. -/
theorem packed_bytes_chronological (namepre : String) (t1 t2 r1 r2 : Nat)
    (h12 : t1 < t2) (h2 : t2 < 2 ^ 32) :
    full_snapshot_name namepre t1 r1 =
      namepre ++ ⟨b64url_encode (pack_name t1 r1)⟩
    ∧ bytes_lt (pack_name t1 r1) (pack_name t2 r2) = true := by
  refine ⟨rfl, ?_⟩
  simp only [pack_name, bytes_lt]
  rcases Nat.lt_trichotomy (t1 / 2 ^ 24 % 256) (t2 / 2 ^ 24 % 256) with h | h | h
  · exact lex_step_lt _ _ _ h
  · rw [lex_step_eq _ _ _ h]
    rcases Nat.lt_trichotomy (t1 / 2 ^ 16 % 256) (t2 / 2 ^ 16 % 256) with g | g | g
    · exact lex_step_lt _ _ _ g
    · rw [lex_step_eq _ _ _ g]
      rcases Nat.lt_trichotomy (t1 / 2 ^ 8 % 256) (t2 / 2 ^ 8 % 256) with k | k | k
      · exact lex_step_lt _ _ _ k
      · rw [lex_step_eq _ _ _ k]
        rcases Nat.lt_trichotomy (t1 % 256) (t2 % 256) with m | m | m
        · exact lex_step_lt _ _ _ m
        · exfalso; omega
        · exfalso; omega
      · exfalso; omega
    · exfalso; omega
  · exfalso; omega

/-- Witness for C7's amended theorem at `t1 = 0 < t2 = 1`. -/
theorem packed_bytes_chronological_witness :
    full_snapshot_name ("friend-") 0 5 = "friend-" ++ ⟨b64url_encode (pack_name 0 5)⟩
    ∧ bytes_lt (pack_name 0 5) (pack_name 1 9) = true :=
  packed_bytes_chronological ("friend-") 0 1 5 9 (by decide) (by decide)

/-! ### C8 — startup default-volume resolution -/

/-- C8: at startup the daemon scans the catalog for the first volume
carrying the configured default tag; if the catalog read fails or no
volume carries the tag, the process exits with code 1 — non-zero —
and the listening socket is never created (no `listen` event precedes
the exit); on success the cached default is the first matching catalog
volume and only then is the socket created. -/
theorem startup_default_resolution (catalog : Except String (List Lv))
    (dtag path : String) :
    (∀ e, catalog = .error e → startup catalog dtag path = ([], .error 1))
    ∧ (∀ lvs, catalog = .ok lvs → (∀ lv ∈ lvs, lv.tags.contains dtag = false) →
        startup catalog dtag path = ([], .error 1))
    ∧ (∀ lvs pre lv post, catalog = .ok lvs → lvs = pre ++ lv :: post →
        lv.tags.contains dtag = true →
        (∀ lv' ∈ pre, lv'.tags.contains dtag = false) →
        startup catalog dtag path = ([StartEvent.listen path], .ok lv))
    ∧ (∀ c, (startup catalog dtag path).2 = .error c →
        c ≠ 0 ∧ ∀ q, StartEvent.listen q ∉ (startup catalog dtag path).1) := by
  refine ⟨?_, ?_, ?_, ?_⟩
  · intro e he; subst he; rfl
  · intro lvs hok hnone
    subst hok
    show (match List.find? (fun lv => lv.tags.contains dtag) lvs with
          | none => (([] : List StartEvent), Except.error 1)
          | some lv => ([StartEvent.listen path], Except.ok lv)) =
        ([], Except.error 1)
    rw [List.find?_eq_none.mpr (fun lv hlv => by
      simp only [hnone lv hlv]; exact Bool.false_ne_true)]
  · intro lvs pre lv post hok hsplit hx hpre
    subst hok; subst hsplit
    show (match List.find? (fun lv => lv.tags.contains dtag)
            (pre ++ lv :: post) with
          | none => (([] : List StartEvent), Except.error 1)
          | some lv => ([StartEvent.listen path], Except.ok lv)) =
        ([StartEvent.listen path], Except.ok lv)
    rw [find?_append_first (fun lv => lv.tags.contains dtag) pre lv post hx hpre]
  · intro c hc
    rcases catalog with e | lvs
    · have hs : startup (Except.error e) dtag path = ([], Except.error 1) := rfl
      rw [hs] at hc
      simp only [] at hc
      refine ⟨by simp at hc; omega, ?_⟩
      rw [hs]; simp
    · rcases hfind : lvs.find? (fun lv => lv.tags.contains dtag) with _ | lv
      · have hs : startup (Except.ok lvs) dtag path = ([], Except.error 1) := by
          show (match List.find? (fun lv => lv.tags.contains dtag) lvs with
                | none => (([] : List StartEvent), Except.error 1)
                | some lv => ([StartEvent.listen path], Except.ok lv)) = _
          rw [hfind]
        refine ⟨?_, ?_⟩
        · rw [hs] at hc; simp at hc; omega
        · rw [hs]; simp
      · have hs : startup (Except.ok lvs) dtag path =
            ([StartEvent.listen path], Except.ok lv) := by
          show (match List.find? (fun lv => lv.tags.contains dtag) lvs with
                | none => (([] : List StartEvent), Except.error 1)
                | some lv => ([StartEvent.listen path], Except.ok lv)) = _
          rw [hfind]
        rw [hs] at hc
        simp at hc

/-- Witness for C8 at a two-volume catalog whose second entry carries
the default tag. -/
theorem startup_default_resolution_witness :
    startup (.ok [⟨"vg", "a", ["x"]⟩, ⟨"vg", "b", ["friend:default"]⟩])
        "friend:default" "/run/s" =
      ([StartEvent.listen ("/run/s")], .ok ⟨"vg", "b", ["friend:default"]⟩) :=
  (startup_default_resolution
      (.ok [⟨"vg", "a", ["x"]⟩, ⟨"vg", "b", ["friend:default"]⟩])
      "friend:default" "/run/s").2.2.1
    [⟨"vg", "a", ["x"]⟩, ⟨"vg", "b", ["friend:default"]⟩]
    [⟨"vg", "a", ["x"]⟩] ⟨"vg", "b", ["friend:default"]⟩ []
    rfl rfl (by decide) (by decide)

/-! ### C9 — tag sanitization -/

/-- C9: every client-supplied tag — the `>` tags matched against the
catalog and the `<` tags applied to the clone — is passed through
`clean_tag` before use and only then prefixed (the prefix itself being
`clean_tag`ed by argparse), so with `find`/`add` the raw client tags,
every tag actually matched against and every tag applied to the clone
consists solely of volume-manager-legal characters. -/
theorem tags_sanitized (rawpre rawsnap : String) (find add : List String) :
    (∀ t : String, str_allowed (clean_tag t) = true)
    ∧ (∀ s ∈ required_tags (clean_tag rawpre) find,
        ∃ u ∈ find, s = clean_tag rawpre ++ clean_tag u)
    ∧ (∀ s ∈ required_tags (clean_tag rawpre) find, str_allowed s = true)
    ∧ (∀ s ∈ addtags_built (clean_tag rawpre) (tag_snapshot_of rawsnap) add,
        str_allowed s = true) := by
  refine ⟨clean_tag_allowed, ?_, ?_, ?_⟩
  · intro s hs
    simp only [required_tags, List.mem_map] at hs
    obtain ⟨u, hu, rfl⟩ := hs
    exact ⟨u, hu, rfl⟩
  · intro s hs
    simp only [required_tags, List.mem_map] at hs
    obtain ⟨u, _, rfl⟩ := hs
    simp [str_allowed_append, clean_tag_allowed]
  · intro s hs
    simp only [addtags_built, List.mem_append, List.mem_map] at hs
    rcases hs with ⟨u, _, rfl⟩ | hs
    · simp [str_allowed_append, clean_tag_allowed]
    · simp only [tag_snapshot_of] at hs
      rcases em (clean_tag rawsnap = "") with h | h
      · simp [h] at hs
      · simp only [h, if_false, List.mem_singleton] at hs
        subst hs
        exact clean_tag_allowed _

/-- Witness for C9: a raw tag with illegal characters on each side. -/
theorem tags_sanitized_witness :
    (str_allowed (clean_tag ("@% bar")) = true)
    ∧ (∃ u ∈ ["@% bar"], ("friend:cache:" ++ clean_tag ("@% bar") : String) =
        clean_tag ("friend:cache:") ++ clean_tag u)
    ∧ str_allowed ("friend:cache:" ++ clean_tag ("@% bar")) = true := by
  have h := tags_sanitized ("friend:cache:") "friend:snapshot" ["@% bar"] ["@% bar"]
  refine ⟨h.1 ("@% bar"), ?_, ?_⟩
  · have := h.2.1 ("friend:cache:" ++ clean_tag ("@% bar"))
      (by rw [show clean_tag ("friend:cache:") = "friend:cache:" from by decide]
          simp [required_tags])
    rwa [show clean_tag ("friend:cache:") = "friend:cache:" from by decide] at this
  · have := h.2.2.1 ("friend:cache:" ++ clean_tag ("@% bar"))
      (by rw [show clean_tag ("friend:cache:") = "friend:cache:" from by decide]
          simp [required_tags])
    exact this

end LvmCacheFriend
